import Mathlib

/-
Verification of the `kayky-cas/lexer` repository (src/lib.rs).

The Rust lexer is embedded shallowly:
  * bytes are `Nat` values (the `u8` values of the source buffer);
  * the borrowed source buffer is a `List Nat`; a token's borrowed
    `literal : &[u8]` slice is the corresponding `List Nat` of bytes;
  * the mutable `Lexer` struct (`source`, `position`, `braces_stack`)
    becomes an immutable structure with explicit state passing;
  * `Iterator::next`, which returns `Option<Token>` but may also panic
    with a `BracketError` display or with "Unknown token", becomes a
    total function into `NextRes` with constructors for the token case,
    the `None` case and every panic.

Every decision `Lexer::next` makes depends only on the suffix
`&self.source[self.position..]` and on `self.braces_stack`, and both of
its self-recursive calls (the whitespace skip and the speculative probe
of the `-` branch) happen at `position + 1`, i.e. on the tail of the
current suffix.  The recursion is therefore structural on the suffix and
is embedded as `scan : List TokenType → List Nat → ScanRes`, which
returns the produced token, the number of bytes consumed (the net
position advance) and the bracket stack after the call.  `next` wraps
`scan` back into `Lexer` states.
-/

namespace RustLexer

/-- `BracketState` from src/lib.rs: whether a bracket token opens or closes. -/
inductive BracketState where
  | Open : BracketState
  | Close : BracketState
deriving DecidableEq

/-- `TokenType` from src/lib.rs, verbatim. -/
inductive TokenType where
  | Paren (s : BracketState)
  | Curly (s : BracketState)
  | Square (s : BracketState)
  | Let
  | Fn
  | Colon
  | Arrow
  | Assign
  | Comma
  | Dot
  | Minus
  | Plus
  | Semicolon
  | Slash
  | Star
  | Ident
  | Integer
  | Bigger
  | Smaller
  | Mut
  | Eof
deriving DecidableEq

/-- `Token` from src/lib.rs: a kind plus the borrowed byte span `literal`. -/
structure Token where
  token_type : TokenType
  literal : List Nat
deriving DecidableEq

/--
The ways a call to `Lexer::next` can fail (it panics in Rust):
`UnexpectedClose c` and `UnexpectedOpen c` are the two `BracketError`
variants (each carrying only the bracket character put into the panic
message), `UnknownToken` is the `panic!("Unknown token")` in the
catch-all arm (it carries no data), and `UnreachablePanic` is the
`unreachable!()` hit when a non-bracket kind sits on the stack at end of
input (never reachable from `Lexer::new`).
-/
inductive LexError where
  | UnexpectedClose (c : Char)
  | UnexpectedOpen (c : Char)
  | UnknownToken
  | UnreachablePanic
deriving DecidableEq

/--
Result of one call of `Lexer::next` on a suffix of the source:
`tok t n st` means the call returned `Some t`, advanced the position by
`n` bytes in total and left `st` as the bracket stack; `eos` is the
`return None` (only taken with an empty stack); `err` is a panic.
-/
inductive ScanRes where
  | tok (t : Token) (consumed : Nat) (stack : List TokenType)
  | eos
  | err (e : LexError)
deriving DecidableEq

/-- `u8::is_ascii_alphanumeric` on byte values. -/
def is_ascii_alphanumeric (c : Nat) : Bool :=
  decide ((48 ≤ c ∧ c ≤ 57) ∨ (65 ≤ c ∧ c ≤ 90) ∨ (97 ≤ c ∧ c ≤ 122))

/-- `u8::is_ascii_digit` on byte values. -/
def is_ascii_digit (c : Nat) : Bool :=
  decide (48 ≤ c ∧ c ≤ 57)

/-- The classification test `&slice[..end]` against `b"let"`, `b"mut"`, `b"fn"`. -/
def keywordOrIdent (lit : List Nat) : TokenType :=
  if lit = [108, 101, 116] then TokenType.Let
  else if lit = [109, 117, 116] then TokenType.Mut
  else if lit = [102, 110] then TokenType.Fn
  else TokenType.Ident

/--
The arms of the `match slice[0]` in `Lexer::next`, as a classification
of the head byte.  The arms of the Rust match are mutually exclusive, so
listing them as a first-match chain is equivalent to the Rust match.
-/
inductive CharClass where
  | ws | lparen | rparen | lcurly | rcurly | lsquare | rsquare
  | smaller | bigger | comma | dot | minus | plus | semicolon
  | slash | star | assign | colon | nul | letter | digit | unknown
deriving DecidableEq

/-- Which arm of the `match slice[0]` a byte falls into. -/
def classify (c : Nat) : CharClass :=
  if c = 32 ∨ c = 10 ∨ c = 9 then CharClass.ws
  else if c = 40 then CharClass.lparen
  else if c = 41 then CharClass.rparen
  else if c = 123 then CharClass.lcurly
  else if c = 125 then CharClass.rcurly
  else if c = 91 then CharClass.lsquare
  else if c = 93 then CharClass.rsquare
  else if c = 60 then CharClass.smaller
  else if c = 62 then CharClass.bigger
  else if c = 44 then CharClass.comma
  else if c = 46 then CharClass.dot
  else if c = 45 then CharClass.minus
  else if c = 43 then CharClass.plus
  else if c = 59 then CharClass.semicolon
  else if c = 47 then CharClass.slash
  else if c = 42 then CharClass.star
  else if c = 61 then CharClass.assign
  else if c = 58 then CharClass.colon
  else if c = 0 then CharClass.nul
  else if (65 ≤ c ∧ c ≤ 90) ∨ (97 ≤ c ∧ c ≤ 122) then CharClass.letter
  else if 48 ≤ c ∧ c ≤ 57 then CharClass.digit
  else CharClass.unknown

/--
The end-of-input branch of `Lexer::next` (`self.position >=
self.source.len()`): pop the stack; a popped bracket kind panics with
`BracketError::UnexpectedOpen` of its opening character, a popped
non-bracket kind is `unreachable!()`, an empty stack is `return None`.
-/
def atEnd (stack : List TokenType) : ScanRes :=
  match stack with
  | [] => ScanRes.eos
  | b :: _ =>
    match b with
    | TokenType.Paren _ => ScanRes.err (LexError.UnexpectedOpen '(')
    | TokenType.Curly _ => ScanRes.err (LexError.UnexpectedOpen '\x7b')
    | TokenType.Square _ => ScanRes.err (LexError.UnexpectedOpen '[')
    | _ => ScanRes.err LexError.UnreachablePanic

/--
The whitespace arm of `Lexer::next` does `self.position += 1; return
self.next()`: the inner result is passed through, with the position
advance of the inner call growing by the skipped byte.
-/
def wsPass (r : ScanRes) : ScanRes :=
  match r with
  | ScanRes.tok t n st => ScanRes.tok t (n + 1) st
  | ScanRes.eos => ScanRes.eos
  | ScanRes.err e => ScanRes.err e

/--
The `-` arm of `Lexer::next` around the result `r` of the speculative
`self.next()` probe it makes at `position + 1`.  If the probe returned
`Some` of a `Bigger` token, the arm returns
`Some(Token::new(Arrow, &slice[..2]))` directly, keeping the position
and bracket stack the probe produced (total advance `n + 1`).
Otherwise it restores `self.position = old` and emits `Minus` through
the common `self.position += literal.len()` exit (total advance `1`) —
only the position is restored: the stack stays as the probe left it in
the `tok` case, and is untouched in the `eos` case (a `None` from the
probe pops nothing when the stack is empty).  A probe panic propagates.
(`&slice[..2]` cannot be out of range in the `Arrow` case: a `Bigger`
result needs at least one byte after the `-`.)
-/
def minusArm (c : Nat) (rest : List Nat) (stack : List TokenType)
    (r : ScanRes) : ScanRes :=
  match r with
  | ScanRes.tok t n st =>
    if t.token_type = TokenType.Bigger then
      ScanRes.tok ⟨TokenType.Arrow, (c :: rest).take 2⟩ (n + 1) st
    else
      ScanRes.tok ⟨TokenType.Minus, [c]⟩ 1 st
  | ScanRes.eos => ScanRes.tok ⟨TokenType.Minus, [c]⟩ 1 stack
  | ScanRes.err e => ScanRes.err e

/--
The `b')'` arm of `Lexer::next`: `self.braces_stack.pop()` and check the
popped entry is exactly `Paren(Open)`, else panic with
`BracketError::UnexpectedClose(')')`.
-/
def closeParen (c : Nat) (stack : List TokenType) : ScanRes :=
  match stack with
  | TokenType.Paren BracketState.Open :: st =>
    ScanRes.tok ⟨TokenType.Paren BracketState.Close, [c]⟩ 1 st
  | _ => ScanRes.err (LexError.UnexpectedClose ')')

/-- The `b'\x7d'` arm of `Lexer::next`, as `closeParen` for `Curly`. -/
def closeCurly (c : Nat) (stack : List TokenType) : ScanRes :=
  match stack with
  | TokenType.Curly BracketState.Open :: st =>
    ScanRes.tok ⟨TokenType.Curly BracketState.Close, [c]⟩ 1 st
  | _ => ScanRes.err (LexError.UnexpectedClose '\x7d')

/-- The `b']'` arm of `Lexer::next`, as `closeParen` for `Square`. -/
def closeSquare (c : Nat) (stack : List TokenType) : ScanRes :=
  match stack with
  | TokenType.Square BracketState.Open :: st =>
    ScanRes.tok ⟨TokenType.Square BracketState.Close, [c]⟩ 1 st
  | _ => ScanRes.err (LexError.UnexpectedClose ']')

/--
One call of `Lexer::next`, as a function of the bracket stack and the
suffix `&self.source[self.position..]`.  The branch bodies are the arm
helpers above; the open-bracket arms push the `Open` kind and emit its
token, the identifier and integer arms extend `end` greedily from 1
while the following bytes satisfy the class test (exactly
`List.takeWhile` on the tail), and the final catch-all arm is
`panic!("Unknown token")`.
-/
def scan (stack : List TokenType) : List Nat → ScanRes
  | [] => atEnd stack
  | c :: rest =>
    match classify c with
    | CharClass.ws => wsPass (scan stack rest)
    | CharClass.lparen =>
      ScanRes.tok ⟨TokenType.Paren BracketState.Open, [c]⟩ 1
        (TokenType.Paren BracketState.Open :: stack)
    | CharClass.rparen => closeParen c stack
    | CharClass.lcurly =>
      ScanRes.tok ⟨TokenType.Curly BracketState.Open, [c]⟩ 1
        (TokenType.Curly BracketState.Open :: stack)
    | CharClass.rcurly => closeCurly c stack
    | CharClass.lsquare =>
      ScanRes.tok ⟨TokenType.Square BracketState.Open, [c]⟩ 1
        (TokenType.Square BracketState.Open :: stack)
    | CharClass.rsquare => closeSquare c stack
    | CharClass.smaller => ScanRes.tok ⟨TokenType.Smaller, [c]⟩ 1 stack
    | CharClass.bigger => ScanRes.tok ⟨TokenType.Bigger, [c]⟩ 1 stack
    | CharClass.comma => ScanRes.tok ⟨TokenType.Comma, [c]⟩ 1 stack
    | CharClass.dot => ScanRes.tok ⟨TokenType.Dot, [c]⟩ 1 stack
    | CharClass.minus => minusArm c rest stack (scan stack rest)
    | CharClass.plus => ScanRes.tok ⟨TokenType.Plus, [c]⟩ 1 stack
    | CharClass.semicolon => ScanRes.tok ⟨TokenType.Semicolon, [c]⟩ 1 stack
    | CharClass.slash => ScanRes.tok ⟨TokenType.Slash, [c]⟩ 1 stack
    | CharClass.star => ScanRes.tok ⟨TokenType.Star, [c]⟩ 1 stack
    | CharClass.assign => ScanRes.tok ⟨TokenType.Assign, [c]⟩ 1 stack
    | CharClass.colon => ScanRes.tok ⟨TokenType.Colon, [c]⟩ 1 stack
    | CharClass.nul => ScanRes.tok ⟨TokenType.Eof, [c]⟩ 1 stack
    | CharClass.letter =>
      let lit := c :: rest.takeWhile (fun b => is_ascii_alphanumeric b)
      ScanRes.tok ⟨keywordOrIdent lit, lit⟩ lit.length stack
    | CharClass.digit =>
      let lit := c :: rest.takeWhile (fun b => is_ascii_digit b)
      ScanRes.tok ⟨TokenType.Integer, lit⟩ lit.length stack
    | CharClass.unknown => ScanRes.err LexError.UnknownToken

/-- The `Lexer` struct from src/lib.rs. -/
structure Lexer where
  source : List Nat
  position : Nat
  braces_stack : List TokenType
deriving DecidableEq

/-- `Lexer::new`: position 0, empty bracket stack. -/
def Lexer.new (source : List Nat) : Lexer :=
  ⟨source, 0, []⟩

/-- Result of `Lexer::next` at the `Lexer` level, with the updated state. -/
inductive NextRes where
  | tok (t : Token) (l : Lexer)
  | eos
  | err (e : LexError)
deriving DecidableEq

/-- `Lexer::next` on the full state: run `scan` on the current suffix. -/
def next (l : Lexer) : NextRes :=
  match scan l.braces_stack (l.source.drop l.position) with
  | ScanRes.tok t n st => NextRes.tok t ⟨l.source, l.position + n, st⟩
  | ScanRes.eos => NextRes.eos
  | ScanRes.err e => NextRes.err e

/-- How a full drive of the lexer ends. -/
inductive Outcome where
  | ended
  | failed (e : LexError)
  | fuelOut
deriving DecidableEq

/--
Driving `Lexer::next` in a loop (the `Iterator` consumption done by the
repository's tests via `collect`), returning the tokens produced before
the end together with how the drive ended.  The recursion is made
structural with a fuel argument; since every produced token consumes at
least one byte, fuel `source.length + 1 - position` always suffices, and
`fuelOut` is unreachable for the standard fuel used by `tokenize` (any
theorem below that proves an `ended`/`failed` outcome certifies this for
its input).
-/
def drive : Nat → Lexer → List Token × Outcome
  | 0, _ => ([], Outcome.fuelOut)
  | fuel + 1, l =>
    match next l with
    | NextRes.eos => ([], Outcome.ended)
    | NextRes.err e => ([], Outcome.failed e)
    | NextRes.tok t l2 =>
      let r := drive fuel l2
      (t :: r.1, r.2)

/-- Tokenize a whole buffer: drive a fresh lexer to the end. -/
def tokenize (source : List Nat) : List Token × Outcome :=
  drive (source.length + 1) (Lexer.new source)

/--
Running exactly `k` successful production steps from a state (stopping
early at end-of-sequence or at a panic): the tokens emitted and the
state reached.  Used to speak about "every point during token
production".
-/
def runK : Nat → Lexer → List Token × Lexer
  | 0, l => ([], l)
  | k + 1, l =>
    match next l with
    | NextRes.tok t l2 =>
      let r := runK k l2
      (t :: r.1, r.2)
    | _ => ([], l)

/--
The effect one produced token has on the bracket stack, as stated by the
spec's invariant: an `Open` bracket token pushes its kind, a `Close`
bracket token removes the innermost entry, every other token leaves the
stack unchanged.
-/
def stepStack (st : List TokenType) (t : Token) : List TokenType :=
  match t.token_type with
  | TokenType.Paren BracketState.Open => TokenType.Paren BracketState.Open :: st
  | TokenType.Curly BracketState.Open => TokenType.Curly BracketState.Open :: st
  | TokenType.Square BracketState.Open => TokenType.Square BracketState.Open :: st
  | TokenType.Paren BracketState.Close => st.tail
  | TokenType.Curly BracketState.Close => st.tail
  | TokenType.Square BracketState.Close => st.tail
  | _ => st

/-- The stack entries reachable from `Lexer::new` are exactly these. -/
def isOpenBracket : TokenType → Bool
  | TokenType.Paren BracketState.Open => true
  | TokenType.Curly BracketState.Open => true
  | TokenType.Square BracketState.Open => true
  | _ => false

/-- The opening byte a stack entry stands for (brackets only). -/
def openByte : TokenType → Nat
  | TokenType.Paren _ => 40
  | TokenType.Curly _ => 123
  | TokenType.Square _ => 91
  | _ => 0

/-- The bracket stack as the byte values of its opening brackets. -/
def stackBytes (stack : List TokenType) : List Nat :=
  stack.map openByte

/-- The opening character reported for a stack entry at end of input. -/
def bracketOpenChar : TokenType → Option Char
  | TokenType.Paren _ => some '('
  | TokenType.Curly _ => some '\x7b'
  | TokenType.Square _ => some '['
  | _ => none

/-- The matching `Open` stack entry a closing byte requires. -/
def closerOpen (cb : Nat) : Option TokenType :=
  if cb = 41 then some (TokenType.Paren BracketState.Open)
  else if cb = 125 then some (TokenType.Curly BracketState.Open)
  else if cb = 93 then some (TokenType.Square BracketState.Open)
  else none

/-- The character a closing byte puts into `BracketError::UnexpectedClose`. -/
def closerChar (cb : Nat) : Option Char :=
  if cb = 41 then some ')'
  else if cb = 125 then some '\x7d'
  else if cb = 93 then some ']'
  else none

/-- The `Close` token kind a closing byte emits on success. -/
def closerTok (cb : Nat) : Option TokenType :=
  if cb = 41 then some (TokenType.Paren BracketState.Close)
  else if cb = 125 then some (TokenType.Curly BracketState.Close)
  else if cb = 93 then some (TokenType.Square BracketState.Close)
  else none

/--
Formalization of the claims' hypothesis "every opening bracket has a
matching, correctly-nested, same-family closer": the classic stack
check over the bracket bytes of the input, ignoring all other bytes.
-/
def goB (st : List Nat) : List Nat → Bool
  | [] => st.isEmpty
  | c :: rest =>
    if c = 40 ∨ c = 123 ∨ c = 91 then goB (c :: st) rest
    else if c = 41 then
      match st with
      | 40 :: st2 => goB st2 rest
      | _ => false
    else if c = 125 then
      match st with
      | 123 :: st2 => goB st2 rest
      | _ => false
    else if c = 93 then
      match st with
      | 91 :: st2 => goB st2 rest
      | _ => false
    else goB st rest

/-- Bracket balance of a whole input (claim hypothesis, see `goB`). -/
def balancedBrackets (s : List Nat) : Bool :=
  goB [] s

/-- Bytes whose `match slice[0]` arm is a recognized, non-`-` token arm. -/
def recognizedNoMinus (c : Nat) : Bool :=
  decide (classify c ≠ CharClass.unknown ∧ classify c ≠ CharClass.minus)

/-- The recognized single-character punctuation bytes of the spec. -/
def punctByte (c : Nat) : Bool :=
  decide (c = 44 ∨ c = 46 ∨ c = 45 ∨ c = 43 ∨ c = 59 ∨ c = 47 ∨ c = 42 ∨
    c = 58 ∨ c = 61 ∨ c = 60 ∨ c = 62)

/-- Whitespace bytes as skipped by the lexer. -/
def wsByte (c : Nat) : Bool :=
  decide (c = 32 ∨ c = 10 ∨ c = 9)

/-- Concatenation of the text spans of a token list, in order. -/
def litConcat (ts : List Token) : List Nat :=
  ts.foldr (fun t r => t.literal ++ r) []

/-- The bracket bytes, for stating which bytes the balance check reacts to. -/
def bracketByte (c : Nat) : Bool :=
  decide (c = 40 ∨ c = 41 ∨ c = 91 ∨ c = 93 ∨ c = 123 ∨ c = 125)

/-- The byte facts each `classify` class guarantees (proof-side inverse). -/
def classBytes (cl : CharClass) (c : Nat) : Prop :=
  match cl with
  | CharClass.ws => c = 32 ∨ c = 10 ∨ c = 9
  | CharClass.lparen => c = 40
  | CharClass.rparen => c = 41
  | CharClass.lcurly => c = 123
  | CharClass.rcurly => c = 125
  | CharClass.lsquare => c = 91
  | CharClass.rsquare => c = 93
  | CharClass.smaller => c = 60
  | CharClass.bigger => c = 62
  | CharClass.comma => c = 44
  | CharClass.dot => c = 46
  | CharClass.minus => c = 45
  | CharClass.plus => c = 43
  | CharClass.semicolon => c = 59
  | CharClass.slash => c = 47
  | CharClass.star => c = 42
  | CharClass.assign => c = 61
  | CharClass.colon => c = 58
  | CharClass.nul => c = 0
  | CharClass.letter => (65 ≤ c ∧ c ≤ 90) ∨ (97 ≤ c ∧ c ≤ 122)
  | CharClass.digit => 48 ≤ c ∧ c ≤ 57
  | CharClass.unknown =>
      ¬(c = 32 ∨ c = 10 ∨ c = 9) ∧ ¬(c = 40 ∨ c = 41 ∨ c = 91 ∨ c = 93 ∨
        c = 123 ∨ c = 125) ∧ c ≠ 45

/-- Unfolding `scan` at end of input. -/
lemma scan_nil (stack : List TokenType) : scan stack [] = atEnd stack := rfl

/-- Unfolding `scan` on a non-empty suffix: dispatch on the head's class. -/
lemma scan_cons (stack : List TokenType) (c : Nat) (rest : List Nat) :
    scan stack (c :: rest) =
      match classify c with
      | CharClass.ws => wsPass (scan stack rest)
      | CharClass.lparen =>
        ScanRes.tok ⟨TokenType.Paren BracketState.Open, [c]⟩ 1
          (TokenType.Paren BracketState.Open :: stack)
      | CharClass.rparen => closeParen c stack
      | CharClass.lcurly =>
        ScanRes.tok ⟨TokenType.Curly BracketState.Open, [c]⟩ 1
          (TokenType.Curly BracketState.Open :: stack)
      | CharClass.rcurly => closeCurly c stack
      | CharClass.lsquare =>
        ScanRes.tok ⟨TokenType.Square BracketState.Open, [c]⟩ 1
          (TokenType.Square BracketState.Open :: stack)
      | CharClass.rsquare => closeSquare c stack
      | CharClass.smaller => ScanRes.tok ⟨TokenType.Smaller, [c]⟩ 1 stack
      | CharClass.bigger => ScanRes.tok ⟨TokenType.Bigger, [c]⟩ 1 stack
      | CharClass.comma => ScanRes.tok ⟨TokenType.Comma, [c]⟩ 1 stack
      | CharClass.dot => ScanRes.tok ⟨TokenType.Dot, [c]⟩ 1 stack
      | CharClass.minus => minusArm c rest stack (scan stack rest)
      | CharClass.plus => ScanRes.tok ⟨TokenType.Plus, [c]⟩ 1 stack
      | CharClass.semicolon => ScanRes.tok ⟨TokenType.Semicolon, [c]⟩ 1 stack
      | CharClass.slash => ScanRes.tok ⟨TokenType.Slash, [c]⟩ 1 stack
      | CharClass.star => ScanRes.tok ⟨TokenType.Star, [c]⟩ 1 stack
      | CharClass.assign => ScanRes.tok ⟨TokenType.Assign, [c]⟩ 1 stack
      | CharClass.colon => ScanRes.tok ⟨TokenType.Colon, [c]⟩ 1 stack
      | CharClass.nul => ScanRes.tok ⟨TokenType.Eof, [c]⟩ 1 stack
      | CharClass.letter =>
        let lit := c :: rest.takeWhile (fun b => is_ascii_alphanumeric b)
        ScanRes.tok ⟨keywordOrIdent lit, lit⟩ lit.length stack
      | CharClass.digit =>
        let lit := c :: rest.takeWhile (fun b => is_ascii_digit b)
        ScanRes.tok ⟨TokenType.Integer, lit⟩ lit.length stack
      | CharClass.unknown => ScanRes.err LexError.UnknownToken := rfl

/-- Every byte satisfies the byte facts of its own class. -/
lemma classify_inv (c : Nat) : classBytes (classify c) c := by
  unfold classify
  by_cases h1 : c = 32 ∨ c = 10 ∨ c = 9
  · rw [if_pos h1]; exact h1
  rw [if_neg h1]
  by_cases h2 : c = 40
  · rw [if_pos h2]; exact h2
  rw [if_neg h2]
  by_cases h3 : c = 41
  · rw [if_pos h3]; exact h3
  rw [if_neg h3]
  by_cases h4 : c = 123
  · rw [if_pos h4]; exact h4
  rw [if_neg h4]
  by_cases h5 : c = 125
  · rw [if_pos h5]; exact h5
  rw [if_neg h5]
  by_cases h6 : c = 91
  · rw [if_pos h6]; exact h6
  rw [if_neg h6]
  by_cases h7 : c = 93
  · rw [if_pos h7]; exact h7
  rw [if_neg h7]
  by_cases h8 : c = 60
  · rw [if_pos h8]; exact h8
  rw [if_neg h8]
  by_cases h9 : c = 62
  · rw [if_pos h9]; exact h9
  rw [if_neg h9]
  by_cases h10 : c = 44
  · rw [if_pos h10]; exact h10
  rw [if_neg h10]
  by_cases h11 : c = 46
  · rw [if_pos h11]; exact h11
  rw [if_neg h11]
  by_cases h12 : c = 45
  · rw [if_pos h12]; exact h12
  rw [if_neg h12]
  by_cases h13 : c = 43
  · rw [if_pos h13]; exact h13
  rw [if_neg h13]
  by_cases h14 : c = 59
  · rw [if_pos h14]; exact h14
  rw [if_neg h14]
  by_cases h15 : c = 47
  · rw [if_pos h15]; exact h15
  rw [if_neg h15]
  by_cases h16 : c = 42
  · rw [if_pos h16]; exact h16
  rw [if_neg h16]
  by_cases h17 : c = 61
  · rw [if_pos h17]; exact h17
  rw [if_neg h17]
  by_cases h18 : c = 58
  · rw [if_pos h18]; exact h18
  rw [if_neg h18]
  by_cases h19 : c = 0
  · rw [if_pos h19]; exact h19
  rw [if_neg h19]
  by_cases h20 : (65 ≤ c ∧ c ≤ 90) ∨ (97 ≤ c ∧ c ≤ 122)
  · rw [if_pos h20]; exact h20
  rw [if_neg h20]
  by_cases h21 : 48 ≤ c ∧ c ≤ 57
  · rw [if_pos h21]; exact h21
  rw [if_neg h21]
  exact ⟨h1, by omega, h12⟩

/-- The byte facts of a known classification result. -/
lemma classBytes_of_classify {c : Nat} {cl : CharClass}
    (h : classify c = cl) : classBytes cl c := by
  rw [← h]; exact classify_inv c

/-- A byte is classified `minus` exactly when it is the `-` byte 0x2D. -/
lemma classify_minus_iff (c : Nat) : classify c = CharClass.minus ↔ c = 45 := by
  constructor
  · intro h
    exact classBytes_of_classify h
  · intro h
    subst h
    rfl

/-- `takeWhile` never yields more elements than the list has. -/
lemma length_takeWhile_le' (p : Nat → Bool) (l : List Nat) :
    (l.takeWhile p).length ≤ l.length := by
  induction l with
  | nil => simp
  | cons a l ih => by_cases h : p a <;> simp [List.takeWhile_cons, h] <;> omega

/-- Dropping as many bytes as `takeWhile` took leaves `dropWhile`. -/
lemma drop_length_takeWhile (p : Nat → Bool) (l : List Nat) :
    l.drop (l.takeWhile p).length = l.dropWhile p := by
  induction l with
  | nil => rfl
  | cons a l ih =>
    by_cases h : p a <;> simp [List.takeWhile_cons, List.dropWhile_cons, h, ih]

/-- Taking as many bytes as `takeWhile` took yields the `takeWhile` span. -/
lemma take_length_takeWhile (p : Nat → Bool) (l : List Nat) :
    l.take (l.takeWhile p).length = l.takeWhile p := by
  induction l with
  | nil => rfl
  | cons a l ih => by_cases h : p a <;> simp [List.takeWhile_cons, h, ih]

/-- The balance check ignores a non-bracket byte. -/
lemma goB_skip {c : Nat} (st : List Nat) (rest : List Nat)
    (h : bracketByte c = false) : goB st (c :: rest) = goB st rest := by
  have h2 : ¬(c = 40 ∨ c = 41 ∨ c = 91 ∨ c = 93 ∨ c = 123 ∨ c = 125) := by
    simpa [bracketByte] using h
  show (if c = 40 ∨ c = 123 ∨ c = 91 then goB (c :: st) rest
    else if c = 41 then
      match st with
      | 40 :: st2 => goB st2 rest
      | _ => false
    else if c = 125 then
      match st with
      | 123 :: st2 => goB st2 rest
      | _ => false
    else if c = 93 then
      match st with
      | 91 :: st2 => goB st2 rest
      | _ => false
    else goB st rest) = goB st rest
  rw [if_neg (by omega), if_neg (by omega), if_neg (by omega), if_neg (by omega)]

/-- The balance check ignores a whole run of non-bracket bytes. -/
lemma goB_skip_all (l1 : List Nat) (st : List Nat) (l2 : List Nat)
    (h : ∀ c ∈ l1, bracketByte c = false) :
    goB st (l1 ++ l2) = goB st l2 := by
  induction l1 with
  | nil => rfl
  | cons a l1 ih =>
    rw [List.cons_append, goB_skip st (l1 ++ l2) (h a (List.mem_cons_self a l1))]
    exact ih (fun c hc => h c (List.mem_cons_of_mem a hc))

/-- An entry accepted by `isOpenBracket` is one of the three `Open` kinds. -/
lemma isOpenBracket_cases {b : TokenType} (h : isOpenBracket b = true) :
    b = TokenType.Paren BracketState.Open ∨ b = TokenType.Curly BracketState.Open ∨
      b = TokenType.Square BracketState.Open := by
  cases b with
  | Paren s => cases s with
    | Open => exact Or.inl rfl
    | Close => exact absurd h (by decide)
  | Curly s => cases s with
    | Open => exact Or.inr (Or.inl rfl)
    | Close => exact absurd h (by decide)
  | Square s => cases s with
    | Open => exact Or.inr (Or.inr rfl)
    | Close => exact absurd h (by decide)
  | _ => exact absurd h (by simp [isOpenBracket])

/-- Unfolding `next` when `scan` produces a token. -/
lemma next_tok {l : Lexer} {t : Token} {n : Nat} {st : List TokenType}
    (h : scan l.braces_stack (l.source.drop l.position) = ScanRes.tok t n st) :
    next l = NextRes.tok t ⟨l.source, l.position + n, st⟩ := by
  unfold next
  rw [h]

/-- Unfolding `next` when `scan` signals end of sequence. -/
lemma next_eos {l : Lexer}
    (h : scan l.braces_stack (l.source.drop l.position) = ScanRes.eos) :
    next l = NextRes.eos := by
  unfold next
  rw [h]

/-- Unfolding `next` when `scan` panics. -/
lemma next_err {l : Lexer} {e : LexError}
    (h : scan l.braces_stack (l.source.drop l.position) = ScanRes.err e) :
    next l = NextRes.err e := by
  unfold next
  rw [h]

/-- Unfolding one step of the driver. -/
lemma drive_succ (fuel : Nat) (l : Lexer) :
    drive (fuel + 1) l =
      match next l with
      | NextRes.eos => ([], Outcome.ended)
      | NextRes.err e => ([], Outcome.failed e)
      | NextRes.tok t l2 =>
        let r := drive fuel l2
        (t :: r.1, r.2) := rfl

lemma bracketByte_of_alnum {b : Nat} (h : is_ascii_alphanumeric b = true) :
    bracketByte b = false := by
  simp only [is_ascii_alphanumeric, decide_eq_true_eq] at h
  simp only [bracketByte, decide_eq_false_iff_not]
  omega

lemma bracketByte_of_digit {b : Nat} (h : is_ascii_digit b = true) :
    bracketByte b = false := by
  simp only [is_ascii_digit, decide_eq_true_eq] at h
  simp only [bracketByte, decide_eq_false_iff_not]
  omega

lemma goB_close41 (st : List Nat) (rest : List Nat) :
    goB st (41 :: rest) =
      (match st with | 40 :: st2 => goB st2 rest | _ => false) := rfl

lemma goB_close125 (st : List Nat) (rest : List Nat) :
    goB st (125 :: rest) =
      (match st with | 123 :: st2 => goB st2 rest | _ => false) := rfl

lemma goB_close93 (st : List Nat) (rest : List Nat) :
    goB st (93 :: rest) =
      (match st with | 91 :: st2 => goB st2 rest | _ => false) := rfl

lemma right_single {c : Nat} {rest : List Nat} {stack : List TokenType} {tt : TokenType}
    (hscan : scan stack (c :: rest) = ScanRes.tok ⟨tt, [c]⟩ 1 stack)
    (hbr : bracketByte c = false)
    (hst : ∀ b ∈ stack, isOpenBracket b = true)
    (hgo : goB (stackBytes stack) (c :: rest) = true) :
    ∃ t n st2, scan stack (c :: rest) = ScanRes.tok t n st2 ∧ 1 ≤ n ∧
      n ≤ (c :: rest).length ∧ (∀ b ∈ st2, isOpenBracket b = true) ∧
      goB (stackBytes st2) ((c :: rest).drop n) = true :=
  ⟨⟨tt, [c]⟩, 1, stack, hscan, le_refl 1, by simp, hst,
    by rwa [goB_skip _ _ hbr] at hgo⟩

lemma scan_balanced_step (s : List Nat) :
    ∀ (stack : List TokenType),
      (∀ c ∈ s, recognizedNoMinus c = true) →
      (∀ b ∈ stack, isOpenBracket b = true) →
      goB (stackBytes stack) s = true →
      (scan stack s = ScanRes.eos ∧ stack = []) ∨
      (∃ t n st2, scan stack s = ScanRes.tok t n st2 ∧ 1 ≤ n ∧ n ≤ s.length ∧
        (∀ b ∈ st2, isOpenBracket b = true) ∧
        goB (stackBytes st2) (s.drop n) = true) := by
  induction s with
  | nil =>
    intro stack _ _ hgo
    left
    have h1 : (stackBytes stack).isEmpty = true := hgo
    have h2 : stack = [] := List.map_eq_nil_iff.mp (List.isEmpty_iff.mp h1)
    subst h2
    exact ⟨rfl, rfl⟩
  | cons c rest ih =>
    intro stack hrec hstack hgo
    cases hcl : classify c with
    | ws =>
      have hcb : c = 32 ∨ c = 10 ∨ c = 9 := classBytes_of_classify hcl
      have hbr : bracketByte c = false := by
        simp only [bracketByte, decide_eq_false_iff_not]; omega
      rw [goB_skip _ _ hbr] at hgo
      rcases ih stack (fun x hx => hrec x (List.mem_cons_of_mem c hx)) hstack hgo with
        ⟨he, hst⟩ | ⟨t, n, st2, hscan, hn1, hn2, hst2, hgo2⟩
      · left
        refine ⟨?_, hst⟩
        rw [scan_cons, hcl, he]; try rfl
      · right
        refine ⟨t, n + 1, st2, ?_, by omega, ?_, hst2, ?_⟩
        · rw [scan_cons, hcl, hscan]; try rfl
        · simp only [List.length_cons]; omega
        · rwa [List.drop_succ_cons]
    | lparen =>
      have hc : c = 40 := classBytes_of_classify hcl
      subst hc
      right
      refine ⟨⟨TokenType.Paren BracketState.Open, [40]⟩, 1,
        TokenType.Paren BracketState.Open :: stack, ?_, le_refl 1, by simp, ?_, ?_⟩
      · rw [scan_cons, hcl]; try rfl
      · intro b hb
        rcases List.mem_cons.mp hb with rfl | hb
        · rfl
        · exact hstack b hb
      · exact hgo
    | lcurly =>
      have hc : c = 123 := classBytes_of_classify hcl
      subst hc
      right
      refine ⟨⟨TokenType.Curly BracketState.Open, [123]⟩, 1,
        TokenType.Curly BracketState.Open :: stack, ?_, le_refl 1, by simp, ?_, ?_⟩
      · rw [scan_cons, hcl]; try rfl
      · intro b hb
        rcases List.mem_cons.mp hb with rfl | hb
        · rfl
        · exact hstack b hb
      · exact hgo
    | lsquare =>
      have hc : c = 91 := classBytes_of_classify hcl
      subst hc
      right
      refine ⟨⟨TokenType.Square BracketState.Open, [91]⟩, 1,
        TokenType.Square BracketState.Open :: stack, ?_, le_refl 1, by simp, ?_, ?_⟩
      · rw [scan_cons, hcl]; try rfl
      · intro b hb
        rcases List.mem_cons.mp hb with rfl | hb
        · rfl
        · exact hstack b hb
      · exact hgo
    | rparen =>
      have hc : c = 41 := classBytes_of_classify hcl
      subst hc
      cases stack with
      | nil => exact absurd hgo (by simp [goB_close41, stackBytes])
      | cons b st0 =>
        have hob := hstack b (List.mem_cons_self b st0)
        rcases isOpenBracket_cases hob with rfl | rfl | rfl
        · right
          refine ⟨⟨TokenType.Paren BracketState.Close, [41]⟩, 1, st0, ?_, le_refl 1,
            by simp, fun x hx => hstack x (List.mem_cons_of_mem _ hx), ?_⟩
          · rw [scan_cons, hcl]; try rfl
          · exact hgo
        · exact absurd hgo (by simp [goB_close41, stackBytes, openByte])
        · exact absurd hgo (by simp [goB_close41, stackBytes, openByte])
    | rcurly =>
      have hc : c = 125 := classBytes_of_classify hcl
      subst hc
      cases stack with
      | nil => exact absurd hgo (by simp [goB_close125, stackBytes])
      | cons b st0 =>
        have hob := hstack b (List.mem_cons_self b st0)
        rcases isOpenBracket_cases hob with rfl | rfl | rfl
        · exact absurd hgo (by simp [goB_close125, stackBytes, openByte])
        · right
          refine ⟨⟨TokenType.Curly BracketState.Close, [125]⟩, 1, st0, ?_, le_refl 1,
            by simp, fun x hx => hstack x (List.mem_cons_of_mem _ hx), ?_⟩
          · rw [scan_cons, hcl]; try rfl
          · exact hgo
        · exact absurd hgo (by simp [goB_close125, stackBytes, openByte])
    | rsquare =>
      have hc : c = 93 := classBytes_of_classify hcl
      subst hc
      cases stack with
      | nil => exact absurd hgo (by simp [goB_close93, stackBytes])
      | cons b st0 =>
        have hob := hstack b (List.mem_cons_self b st0)
        rcases isOpenBracket_cases hob with rfl | rfl | rfl
        · exact absurd hgo (by simp [goB_close93, stackBytes, openByte])
        · exact absurd hgo (by simp [goB_close93, stackBytes, openByte])
        · right
          refine ⟨⟨TokenType.Square BracketState.Close, [93]⟩, 1, st0, ?_, le_refl 1,
            by simp, fun x hx => hstack x (List.mem_cons_of_mem _ hx), ?_⟩
          · rw [scan_cons, hcl]; try rfl
          · exact hgo
    | smaller =>
      have hc : c = 60 := classBytes_of_classify hcl
      exact Or.inr (right_single (by rw [scan_cons, hcl]; try rfl)
        (by subst hc; decide) hstack hgo)
    | bigger =>
      have hc : c = 62 := classBytes_of_classify hcl
      exact Or.inr (right_single (by rw [scan_cons, hcl]; try rfl)
        (by subst hc; decide) hstack hgo)
    | comma =>
      have hc : c = 44 := classBytes_of_classify hcl
      exact Or.inr (right_single (by rw [scan_cons, hcl]; try rfl)
        (by subst hc; decide) hstack hgo)
    | dot =>
      have hc : c = 46 := classBytes_of_classify hcl
      exact Or.inr (right_single (by rw [scan_cons, hcl]; try rfl)
        (by subst hc; decide) hstack hgo)
    | plus =>
      have hc : c = 43 := classBytes_of_classify hcl
      exact Or.inr (right_single (by rw [scan_cons, hcl]; try rfl)
        (by subst hc; decide) hstack hgo)
    | semicolon =>
      have hc : c = 59 := classBytes_of_classify hcl
      exact Or.inr (right_single (by rw [scan_cons, hcl]; try rfl)
        (by subst hc; decide) hstack hgo)
    | slash =>
      have hc : c = 47 := classBytes_of_classify hcl
      exact Or.inr (right_single (by rw [scan_cons, hcl]; try rfl)
        (by subst hc; decide) hstack hgo)
    | star =>
      have hc : c = 42 := classBytes_of_classify hcl
      exact Or.inr (right_single (by rw [scan_cons, hcl]; try rfl)
        (by subst hc; decide) hstack hgo)
    | assign =>
      have hc : c = 61 := classBytes_of_classify hcl
      exact Or.inr (right_single (by rw [scan_cons, hcl]; try rfl)
        (by subst hc; decide) hstack hgo)
    | colon =>
      have hc : c = 58 := classBytes_of_classify hcl
      exact Or.inr (right_single (by rw [scan_cons, hcl]; try rfl)
        (by subst hc; decide) hstack hgo)
    | nul =>
      have hc : c = 0 := classBytes_of_classify hcl
      exact Or.inr (right_single (by rw [scan_cons, hcl]; try rfl)
        (by subst hc; decide) hstack hgo)
    | minus =>
      have hrm := hrec c (List.mem_cons_self c rest)
      rw [recognizedNoMinus, hcl] at hrm
      exact absurd hrm (by decide)
    | unknown =>
      have hrm := hrec c (List.mem_cons_self c rest)
      rw [recognizedNoMinus, hcl] at hrm
      exact absurd hrm (by decide)
    | letter =>
      have hcb : (65 ≤ c ∧ c ≤ 90) ∨ (97 ≤ c ∧ c ≤ 122) := classBytes_of_classify hcl
      have hbr : bracketByte c = false := by
        simp only [bracketByte, decide_eq_false_iff_not]; omega
      right
      refine ⟨⟨keywordOrIdent (c :: rest.takeWhile (fun b => is_ascii_alphanumeric b)),
        c :: rest.takeWhile (fun b => is_ascii_alphanumeric b)⟩,
        (c :: rest.takeWhile (fun b => is_ascii_alphanumeric b)).length, stack,
        ?_, ?_, ?_, hstack, ?_⟩
      · rw [scan_cons, hcl]; try rfl
      · simp
      · simp only [List.length_cons]
        have := length_takeWhile_le' (fun b => is_ascii_alphanumeric b) rest
        omega
      · rw [goB_skip _ _ hbr] at hgo
        rw [← List.takeWhile_append_dropWhile
          (p := fun b => is_ascii_alphanumeric b) (l := rest)] at hgo
        rw [goB_skip_all _ _ _
          (fun x hx => bracketByte_of_alnum (List.mem_takeWhile_imp hx))] at hgo
        rw [List.length_cons, List.drop_succ_cons, drop_length_takeWhile]
        exact hgo
    | digit =>
      have hcb : 48 ≤ c ∧ c ≤ 57 := classBytes_of_classify hcl
      have hbr : bracketByte c = false := by
        simp only [bracketByte, decide_eq_false_iff_not]; omega
      right
      refine ⟨⟨TokenType.Integer, c :: rest.takeWhile (fun b => is_ascii_digit b)⟩,
        (c :: rest.takeWhile (fun b => is_ascii_digit b)).length, stack,
        ?_, ?_, ?_, hstack, ?_⟩
      · rw [scan_cons, hcl]; try rfl
      · simp
      · simp only [List.length_cons]
        have := length_takeWhile_le' (fun b => is_ascii_digit b) rest
        omega
      · rw [goB_skip _ _ hbr] at hgo
        rw [← List.takeWhile_append_dropWhile
          (p := fun b => is_ascii_digit b) (l := rest)] at hgo
        rw [goB_skip_all _ _ _
          (fun x hx => bracketByte_of_digit (List.mem_takeWhile_imp hx))] at hgo
        rw [List.length_cons, List.drop_succ_cons, drop_length_takeWhile]
        exact hgo



lemma drive_balanced (fuel : Nat) :
    ∀ (src : List Nat) (pos : Nat) (stack : List TokenType),
      (∀ c ∈ src.drop pos, recognizedNoMinus c = true) →
      (∀ b ∈ stack, isOpenBracket b = true) →
      goB (stackBytes stack) (src.drop pos) = true →
      (src.drop pos).length + 1 ≤ fuel →
      ∃ ts, drive fuel ⟨src, pos, stack⟩ = (ts, Outcome.ended) := by
  induction fuel with
  | zero =>
    intro src pos stack _ _ _ hf
    omega
  | succ fuel ih =>
    intro src pos stack hrec hstack hgo hf
    rcases scan_balanced_step (src.drop pos) stack hrec hstack hgo with
      ⟨he, _⟩ | ⟨t, n, st2, hscan, hn1, hn2, hst2, hgo2⟩
    · refine ⟨[], ?_⟩
      rw [drive_succ, next_eos (l := ⟨src, pos, stack⟩) he]
    · have hnext := next_tok (l := ⟨src, pos, stack⟩) hscan
      have hdrop : src.drop (pos + n) = (src.drop pos).drop n :=
        (List.drop_drop n pos src).symm
      have hlen : ((src.drop pos).drop n).length = (src.drop pos).length - n :=
        List.length_drop n (src.drop pos)
      obtain ⟨ts, hts⟩ := ih src (pos + n) st2
        (fun c hc => hrec c (List.mem_of_mem_drop (hdrop ▸ hc)))
        hst2 (by rw [hdrop]; exact hgo2)
        (by rw [hdrop]; omega)
      refine ⟨t :: ts, ?_⟩
      rw [drive_succ, hnext]
      simp only []
      rw [hts]



lemma keywordOrIdent_cases (lit : List Nat) :
    keywordOrIdent lit = TokenType.Let ∨ keywordOrIdent lit = TokenType.Mut ∨
      keywordOrIdent lit = TokenType.Fn ∨ keywordOrIdent lit = TokenType.Ident := by
  unfold keywordOrIdent
  split_ifs <;> tauto

lemma scan_step_stack (s : List Nat) :
    ∀ (stack : List TokenType) (t : Token) (n : Nat) (st2 : List TokenType),
      (∀ c ∈ s, classify c ≠ CharClass.minus) →
      scan stack s = ScanRes.tok t n st2 →
      st2 = stepStack stack t := by
  induction s with
  | nil =>
    intro stack t n st2 _ h
    rw [scan_nil] at h
    cases stack with
    | nil => exact absurd h (by simp [atEnd])
    | cons b st0 => cases b <;> simp [atEnd] at h
  | cons c rest ih =>
    intro stack t n st2 hnm h
    rw [scan_cons] at h
    cases hcl : classify c <;> rw [hcl] at h
    case ws =>
      cases hs : scan stack rest with
      | tok t2 n2 st3 =>
        rw [hs] at h
        have h2 : ScanRes.tok t2 (n2 + 1) st3 = ScanRes.tok t n st2 := h
        injection h2 with ha hb hc
        rw [← hc, ← ha]
        exact ih stack t2 n2 st3 (fun x hx => hnm x (List.mem_cons_of_mem c hx)) hs
      | eos => rw [hs] at h; exact absurd h (by simp [wsPass])
      | err e => rw [hs] at h; exact absurd h (by simp [wsPass])
    case lparen => cases h; rfl
    case lcurly => cases h; rfl
    case lsquare => cases h; rfl
    case rparen =>
      cases stack with
      | nil => simp [closeParen] at h
      | cons b st0 =>
        cases b with
        | Paren ss =>
          cases ss with
          | Open => cases h; rfl
          | Close => simp [closeParen] at h
        | Curly ss => simp [closeParen] at h
        | Square ss => simp [closeParen] at h
        | _ => simp [closeParen] at h
    case rcurly =>
      cases stack with
      | nil => simp [closeCurly] at h
      | cons b st0 =>
        cases b with
        | Curly ss =>
          cases ss with
          | Open => cases h; rfl
          | Close => simp [closeCurly] at h
        | Paren ss => simp [closeCurly] at h
        | Square ss => simp [closeCurly] at h
        | _ => simp [closeCurly] at h
    case rsquare =>
      cases stack with
      | nil => simp [closeSquare] at h
      | cons b st0 =>
        cases b with
        | Square ss =>
          cases ss with
          | Open => cases h; rfl
          | Close => simp [closeSquare] at h
        | Paren ss => simp [closeSquare] at h
        | Curly ss => simp [closeSquare] at h
        | _ => simp [closeSquare] at h
    case smaller => cases h; rfl
    case bigger => cases h; rfl
    case comma => cases h; rfl
    case dot => cases h; rfl
    case minus => exact absurd hcl (hnm c (List.mem_cons_self c rest))
    case plus => cases h; rfl
    case semicolon => cases h; rfl
    case slash => cases h; rfl
    case star => cases h; rfl
    case assign => cases h; rfl
    case colon => cases h; rfl
    case nul => cases h; rfl
    case letter =>
      cases h
      rcases keywordOrIdent_cases
          (c :: rest.takeWhile (fun b => is_ascii_alphanumeric b)) with
        hk | hk | hk | hk <;> simp [stepStack, hk]
    case digit => cases h; rfl
    case unknown => exact absurd h (by simp)

lemma runK_succ (k : Nat) (l : Lexer) :
    runK (k + 1) l =
      match next l with
      | NextRes.tok t l2 =>
        let r := runK k l2
        (t :: r.1, r.2)
      | _ => ([], l) := rfl

lemma runK_stepStack (k : Nat) :
    ∀ (l : Lexer), (∀ c ∈ l.source, classify c ≠ CharClass.minus) →
      ((runK k l).2).braces_stack =
        ((runK k l).1).foldl stepStack l.braces_stack := by
  induction k with
  | zero => intro l _; rfl
  | succ k ih =>
    intro l hnm
    rw [runK_succ]
    cases hn : next l with
    | eos => rfl
    | err e => rfl
    | tok t l2 =>
      unfold next at hn
      cases hscan : scan l.braces_stack (l.source.drop l.position) with
      | tok t2 n2 st2 =>
        rw [hscan] at hn
        cases hn
        have hstep : st2 = stepStack l.braces_stack t :=
          scan_step_stack (l.source.drop l.position) l.braces_stack t n2 st2
            (fun x hx => hnm x (List.mem_of_mem_drop hx)) hscan
        simp only [List.foldl_cons]
        rw [← hstep]
        exact ih ⟨l.source, l.position + n2, st2⟩ hnm
      | eos => rw [hscan] at hn; exact absurd hn (by simp)
      | err e => rw [hscan] at hn; exact absurd hn (by simp)

lemma punct_step (s : List Nat) :
    (∀ c ∈ s, punctByte c = true) → s ≠ [] →
    ∃ t n, scan [] s = ScanRes.tok t n [] ∧ 1 ≤ n ∧ n ≤ s.length ∧
      t.literal = s.take n ∧
      (t.token_type = TokenType.Bigger ↔ s.head? = some 62) := by
  induction s with
  | nil => intro _ hne; exact absurd rfl hne
  | cons c rest ih =>
    intro hp _
    have hc : c = 44 ∨ c = 46 ∨ c = 45 ∨ c = 43 ∨ c = 59 ∨ c = 47 ∨ c = 42 ∨
        c = 58 ∨ c = 61 ∨ c = 60 ∨ c = 62 := by
      simpa [punctByte] using hp c (List.mem_cons_self c rest)
    rcases hc with rfl | rfl | rfl | rfl | rfl | rfl | rfl | rfl | rfl | rfl | rfl
    · exact ⟨⟨TokenType.Comma, [44]⟩, 1, rfl, le_refl 1, by simp, rfl, by simp⟩
    · exact ⟨⟨TokenType.Dot, [46]⟩, 1, rfl, le_refl 1, by simp, rfl, by simp⟩
    · -- c = 45 : the minus arm with its speculative probe
      cases rest with
      | nil =>
        exact ⟨⟨TokenType.Minus, [45]⟩, 1, rfl, le_refl 1, by simp, rfl, by simp⟩
      | cons c2 r2 =>
        by_cases h62 : c2 = 62
        · subst h62
          exact ⟨⟨TokenType.Arrow, [45, 62]⟩, 2, rfl, by omega, by simp, rfl, by simp⟩
        · obtain ⟨t2, n2, hscan2, hn1, hn2, hlit, hiff⟩ :=
            ih (fun x hx => hp x (List.mem_cons_of_mem 45 hx)) (by simp)
          have hnb : t2.token_type ≠ TokenType.Bigger := by
            intro hb
            exact h62 (Option.some.inj (hiff.mp hb))
          refine ⟨⟨TokenType.Minus, [45]⟩, 1, ?_, le_refl 1, by simp, rfl, by simp⟩
          rw [scan_cons]
          show minusArm 45 (c2 :: r2) [] (scan [] (c2 :: r2)) = _
          rw [hscan2]
          simp [minusArm, hnb]
    · exact ⟨⟨TokenType.Plus, [43]⟩, 1, rfl, le_refl 1, by simp, rfl, by simp⟩
    · exact ⟨⟨TokenType.Semicolon, [59]⟩, 1, rfl, le_refl 1, by simp, rfl, by simp⟩
    · exact ⟨⟨TokenType.Slash, [47]⟩, 1, rfl, le_refl 1, by simp, rfl, by simp⟩
    · exact ⟨⟨TokenType.Star, [42]⟩, 1, rfl, le_refl 1, by simp, rfl, by simp⟩
    · exact ⟨⟨TokenType.Colon, [58]⟩, 1, rfl, le_refl 1, by simp, rfl, by simp⟩
    · exact ⟨⟨TokenType.Assign, [61]⟩, 1, rfl, le_refl 1, by simp, rfl, by simp⟩
    · exact ⟨⟨TokenType.Smaller, [60]⟩, 1, rfl, le_refl 1, by simp, rfl, by simp⟩
    · exact ⟨⟨TokenType.Bigger, [62]⟩, 1, rfl, le_refl 1, by simp, rfl, by simp⟩

lemma drive_punct (fuel : Nat) :
    ∀ (src : List Nat) (pos : Nat),
      (∀ c ∈ src.drop pos, punctByte c = true) →
      (src.drop pos).length + 1 ≤ fuel →
      ∃ ts, drive fuel ⟨src, pos, []⟩ = (ts, Outcome.ended) ∧
        litConcat ts = src.drop pos := by
  induction fuel with
  | zero => intro src pos _ hf; omega
  | succ fuel ih =>
    intro src pos hp hf
    by_cases hs : src.drop pos = []
    · refine ⟨[], ?_, by rw [hs]; rfl⟩
      have he : scan ([] : List TokenType) (src.drop pos) = ScanRes.eos := by
        rw [hs]; rfl
      rw [drive_succ, next_eos (l := ⟨src, pos, []⟩) he]
    · obtain ⟨t, n, hscan, hn1, hn2, hlit, _⟩ := punct_step (src.drop pos) hp hs
      have hnext := next_tok (l := ⟨src, pos, []⟩) hscan
      have hdrop : src.drop (pos + n) = (src.drop pos).drop n :=
        (List.drop_drop n pos src).symm
      have hlen : ((src.drop pos).drop n).length = (src.drop pos).length - n :=
        List.length_drop n (src.drop pos)
      obtain ⟨ts, hd, hcat⟩ := ih src (pos + n)
        (fun c hc => hp c (List.mem_of_mem_drop (hdrop ▸ hc)))
        (by rw [hdrop]; omega)
      refine ⟨t :: ts, ?_, ?_⟩
      · rw [drive_succ, hnext]
        simp only []
        rw [hd]
      · show t.literal ++ litConcat ts = src.drop pos
        rw [hcat, hdrop, hlit, List.take_append_drop]

end RustLexer

namespace RustLexer

/--
C1 counterexample: the claim "at every point during token production the
bracket stack contains exactly the open-bracket tokens emitted so far
whose matching close has not yet been seen, and a failed `-` lookahead
reverts any bracket-stack mutation of the speculative probe" is false on
the code.  On input "-(" the first production step emits `Minus` —
no bracket token has been emitted — yet the bracket stack already holds
`Paren(Open)`, pushed by the speculative probe and not reverted, so the
stack differs from the fold of the emitted tokens (the empty stack).
-/
theorem c1_counterexample :
    runK 1 (Lexer.new [45, 40]) =
      ([⟨TokenType.Minus, [45]⟩], ⟨[45, 40], 1, [TokenType.Paren BracketState.Open]⟩) ∧
    ([⟨TokenType.Minus, [45]⟩] : List Token).foldl stepStack [] = [] ∧
    ([TokenType.Paren BracketState.Open] : List TokenType) ≠ [] :=
  ⟨rfl, rfl, by decide⟩

/--
C1 amended: when the `-` lookahead fails and `Minus` is emitted, only the
position is rolled back — the bracket stack is left exactly as the
speculative probe left it (first conjunct); and for inputs containing no
`-` byte 0x2D, at every point during token production the bracket stack
equals the open-bracket tokens emitted so far whose matching close has
not yet been seen, innermost on top, i.e. the fold of the emitted tokens
under push-on-`Open` / pop-on-`Close` (second conjunct).
-/
theorem c1_theorem :
    (∀ (stack : List TokenType) (rest : List Nat) (t : Token) (n : Nat)
        (st2 : List TokenType),
      scan stack rest = ScanRes.tok t n st2 →
      t.token_type ≠ TokenType.Bigger →
      scan stack (45 :: rest) = ScanRes.tok ⟨TokenType.Minus, [45]⟩ 1 st2) ∧
    (∀ (src : List Nat) (k : Nat),
      (∀ c ∈ src, c ≠ 45) →
      ((runK k (Lexer.new src)).2).braces_stack =
        ((runK k (Lexer.new src)).1).foldl stepStack []) := by
  constructor
  · intro stack rest t n st2 hp hb
    rw [scan_cons]
    show minusArm 45 rest stack (scan stack rest) = _
    rw [hp]
    simp [minusArm, hb]
  · intro src k h45
    have hnm : ∀ c ∈ src, classify c ≠ CharClass.minus := by
      intro c hc hcl
      exact h45 c hc ((classify_minus_iff c).mp hcl)
    exact runK_stepStack k (Lexer.new src) hnm

/-- C1 witness: both conjuncts of `c1_theorem` at concrete inputs. -/
theorem c1_witness :
    scan [] (45 :: [40]) = ScanRes.tok ⟨TokenType.Minus, [45]⟩ 1
      [TokenType.Paren BracketState.Open] ∧
    ((runK 2 (Lexer.new [40, 41])).2).braces_stack =
      ((runK 2 (Lexer.new [40, 41])).1).foldl stepStack [] :=
  ⟨c1_theorem.1 [] [40] ⟨TokenType.Paren BracketState.Open, [40]⟩ 1
      [TokenType.Paren BracketState.Open] rfl (by decide),
    c1_theorem.2 [40, 41] 2 (by decide)⟩

/--
C2 counterexample: the claim "every input whose brackets are balanced
lexes to the end without a LexError" is false on the code.  The balanced
input "-()" fails with `UnexpectedOpen '('` because the `-` lookahead's
probe pushes the `(` onto the bracket stack and the rollback does not
undo it, so the paren is pushed twice but popped once; the bracket-free
(hence balanced) input "#" fails with `UnknownToken`.
-/
theorem c2_counterexample :
    balancedBrackets [45, 40, 41] = true ∧
    tokenize [45, 40, 41] =
      ([⟨TokenType.Minus, [45]⟩, ⟨TokenType.Paren BracketState.Open, [40]⟩,
        ⟨TokenType.Paren BracketState.Close, [41]⟩],
       Outcome.failed (LexError.UnexpectedOpen '(')) ∧
    balancedBrackets [35] = true ∧
    tokenize [35] = ([], Outcome.failed LexError.UnknownToken) :=
  ⟨rfl, rfl, rfl, rfl⟩

/--
C2 amended: for every input over the recognized bytes whose `match` arm
is neither the unknown-byte panic nor the `-` arm, if every opening
bracket has a matching, correctly-nested, same-family closer then
driving production to the end of the buffer succeeds with no LexError
(and end of sequence is reached, which the code only signals with an
empty bracket stack).
-/
theorem c2_theorem (src : List Nat)
    (halpha : ∀ c ∈ src, recognizedNoMinus c = true)
    (hbal : balancedBrackets src = true) :
    ∃ ts, tokenize src = (ts, Outcome.ended) := by
  obtain ⟨ts, hts⟩ := drive_balanced (src.length + 1) src 0 []
    (by simpa using halpha) (by simp) (by simpa using hbal) (by simp)
  exact ⟨ts, hts⟩

/-- C2 witness: `c2_theorem` at the balanced input "()". -/
theorem c2_witness : ∃ ts, tokenize [40, 41] = (ts, Outcome.ended) :=
  c2_theorem [40, 41] (by decide) (by decide)

/--
C3 counterexample: the claim that "- >" does not produce an Arrow token
is false on the code.  The input "- >" (bytes 45, 32, 62) lexes to
exactly one `Arrow` token: the `-` lookahead calls `self.next()`, which
skips the whitespace and returns the `Bigger` token, so the lookahead
succeeds across whitespace.
-/
theorem c3_counterexample :
    tokenize [45, 32, 62] = ([⟨TokenType.Arrow, [45, 32]⟩], Outcome.ended) ∧
    TokenType.Arrow ∈ ((tokenize [45, 32, 62]).1).map Token.token_type :=
  ⟨rfl, by decide⟩

/--
C3 amended: a `-` followed by whitespace and then `>` DOES produce an
Arrow token.  The lookahead succeeds whenever the recursively produced
next token is `Bigger`, adjacent or not (first conjunct), and "- >"
lexes to a single `Arrow` whose two-byte literal covers the `-` and the
following space rather than the `>` (second conjunct).
-/
theorem c3_theorem :
    (∀ (stack : List TokenType) (rest : List Nat) (t : Token) (n : Nat)
        (st2 : List TokenType),
      scan stack rest = ScanRes.tok t n st2 →
      t.token_type = TokenType.Bigger →
      scan stack (45 :: rest) =
        ScanRes.tok ⟨TokenType.Arrow, (45 :: rest).take 2⟩ (n + 1) st2) ∧
    tokenize [45, 32, 62] = ([⟨TokenType.Arrow, [45, 32]⟩], Outcome.ended) := by
  constructor
  · intro stack rest t n st2 hp hb
    rw [scan_cons]
    show minusArm 45 rest stack (scan stack rest) = _
    rw [hp]
    simp [minusArm, hb]
  · rfl

/-- C3 witness: the general conjunct of `c3_theorem` at "- >" itself. -/
theorem c3_witness :
    scan [] (45 :: [32, 62]) = ScanRes.tok ⟨TokenType.Arrow, [45, 32]⟩ 3 [] :=
  c3_theorem.1 [] [32, 62] ⟨TokenType.Bigger, [62]⟩ 2 [] rfl rfl

/--
C4 counterexample: the claim "for inputs of recognized single-character
punctuation and whitespace, concatenating the produced token spans
reconstructs the whitespace-free subsequence of the input" is false on
the code.  On "- >;" the Arrow token's span is `slice[..2]` of the
suffix starting at `-`, i.e. the bytes 45, 32 — it contains the space
and misses the `>` — so the concatenation is 45, 32, 59 while the
whitespace-free subsequence is 45, 62, 59.
-/
theorem c4_counterexample :
    tokenize [45, 32, 62, 59] =
      ([⟨TokenType.Arrow, [45, 32]⟩, ⟨TokenType.Semicolon, [59]⟩], Outcome.ended) ∧
    litConcat [⟨TokenType.Arrow, [45, 32]⟩, ⟨TokenType.Semicolon, [59]⟩] =
      [45, 32, 59] ∧
    [45, 32, 62, 59].filter (fun c => !wsByte c) = [45, 62, 59] ∧
    ([45, 32, 59] : List Nat) ≠ [45, 62, 59] :=
  ⟨rfl, rfl, rfl, by decide⟩

/--
C4 amended: for every input composed solely of the recognized
single-character punctuation bytes (no whitespace), driving production
to the end succeeds and concatenating the text spans of all produced
tokens, in production order, exactly reconstructs the input.
-/
theorem c4_theorem (src : List Nat) (hp : ∀ c ∈ src, punctByte c = true) :
    ∃ ts, tokenize src = (ts, Outcome.ended) ∧ litConcat ts = src := by
  obtain ⟨ts, hd, hcat⟩ := drive_punct (src.length + 1) src 0
    (by simpa using hp) (by simp)
  exact ⟨ts, hd, by simpa using hcat⟩

/-- C4 witness: `c4_theorem` at the punctuation input "->;". -/
theorem c4_witness : ∃ ts, tokenize [45, 62, 59] = (ts, Outcome.ended) ∧
    litConcat ts = [45, 62, 59] :=
  c4_theorem [45, 62, 59] (by decide)

/--
C5 confirmed: when the scan position is at or past the end of the buffer
and the bracket stack is non-empty, production fails with the
unclosed-bracket panic (`BracketError::UnexpectedOpen`) reporting the
innermost, top-of-stack unclosed delimiter's opening character; and the
input "(" yields exactly one `Paren(Open)` token followed by that
failure for `(` — never a soft end of sequence.
-/
theorem c5_theorem :
    (∀ (l : Lexer) (b : TokenType) (rest : List TokenType) (ch : Char),
      l.source.length ≤ l.position →
      l.braces_stack = b :: rest →
      bracketOpenChar b = some ch →
      next l = NextRes.err (LexError.UnexpectedOpen ch)) ∧
    tokenize [40] = ([⟨TokenType.Paren BracketState.Open, [40]⟩],
      Outcome.failed (LexError.UnexpectedOpen '(')) := by
  constructor
  · intro l b rest ch hlen hstack hch
    have hdrop : l.source.drop l.position = [] := List.drop_eq_nil_of_le hlen
    refine next_err ?_
    rw [hdrop, scan_nil, hstack]
    cases b with
    | Paren s =>
      have h2 : (some '(' : Option Char) = some ch := hch
      obtain rfl := (Option.some.inj h2).symm
      rfl
    | Curly s =>
      have h2 : (some '\x7b' : Option Char) = some ch := hch
      obtain rfl := (Option.some.inj h2).symm
      rfl
    | Square s =>
      have h2 : (some '[' : Option Char) = some ch := hch
      obtain rfl := (Option.some.inj h2).symm
      rfl
    | _ => exact absurd hch (by simp [bracketOpenChar])
  · rfl

/-- C5 witness: the general conjunct of `c5_theorem` at a state past the
end of the buffer with a `Curly(Open)` on the stack. -/
theorem c5_witness :
    next ⟨[40], 1, [TokenType.Curly BracketState.Open]⟩ =
      NextRes.err (LexError.UnexpectedOpen '\x7b') :=
  c5_theorem.1 ⟨[40], 1, [TokenType.Curly BracketState.Open]⟩
    (TokenType.Curly BracketState.Open) [] '\x7b' (by decide) rfl rfl

/--
C6 confirmed: on a closing bracket byte, production pops the bracket
stack and fails with the mismatched-bracket panic
(`BracketError::UnexpectedClose` of the closing character) whenever the
stack was empty or the popped entry is not exactly the same-family
`Open` kind; family matching is exact — the popped entry succeeds only
for its own family's closer.  The input "(}" yields the `Paren(Open)`
token and then that failure for `}`.
-/
theorem c6_theorem :
    (∀ (cb : Nat) (ch : Char) (opn : TokenType) (tail : List Nat),
      closerChar cb = some ch → closerOpen cb = some opn →
      (scan [] (cb :: tail) = ScanRes.err (LexError.UnexpectedClose ch)) ∧
      (∀ (b : TokenType) (st0 : List TokenType),
        isOpenBracket b = true → b ≠ opn →
        scan (b :: st0) (cb :: tail) =
          ScanRes.err (LexError.UnexpectedClose ch)) ∧
      (∀ (st0 : List TokenType) (ct : TokenType), closerTok cb = some ct →
        scan (opn :: st0) (cb :: tail) = ScanRes.tok ⟨ct, [cb]⟩ 1 st0)) ∧
    tokenize [40, 125] = ([⟨TokenType.Paren BracketState.Open, [40]⟩],
      Outcome.failed (LexError.UnexpectedClose '\x7d')) := by
  constructor
  · intro cb ch opn tail hch hopn
    by_cases h41 : cb = 41
    · subst h41
      have h2 : (some ')' : Option Char) = some ch := hch
      obtain rfl := (Option.some.inj h2).symm
      have h3 : (some (TokenType.Paren BracketState.Open) : Option TokenType) =
          some opn := hopn
      obtain rfl := (Option.some.inj h3).symm
      refine ⟨rfl, ?_, ?_⟩
      · intro b st0 hob hne
        rcases isOpenBracket_cases hob with rfl | rfl | rfl
        · exact absurd rfl hne
        · rfl
        · rfl
      · intro st0 ct hct
        have h4 : (some (TokenType.Paren BracketState.Close) : Option TokenType) =
            some ct := hct
        obtain rfl := (Option.some.inj h4).symm
        rfl
    by_cases h125 : cb = 125
    · subst h125
      have h2 : (some '\x7d' : Option Char) = some ch := hch
      obtain rfl := (Option.some.inj h2).symm
      have h3 : (some (TokenType.Curly BracketState.Open) : Option TokenType) =
          some opn := hopn
      obtain rfl := (Option.some.inj h3).symm
      refine ⟨rfl, ?_, ?_⟩
      · intro b st0 hob hne
        rcases isOpenBracket_cases hob with rfl | rfl | rfl
        · rfl
        · exact absurd rfl hne
        · rfl
      · intro st0 ct hct
        have h4 : (some (TokenType.Curly BracketState.Close) : Option TokenType) =
            some ct := hct
        obtain rfl := (Option.some.inj h4).symm
        rfl
    by_cases h93 : cb = 93
    · subst h93
      have h2 : (some ']' : Option Char) = some ch := hch
      obtain rfl := (Option.some.inj h2).symm
      have h3 : (some (TokenType.Square BracketState.Open) : Option TokenType) =
          some opn := hopn
      obtain rfl := (Option.some.inj h3).symm
      refine ⟨rfl, ?_, ?_⟩
      · intro b st0 hob hne
        rcases isOpenBracket_cases hob with rfl | rfl | rfl
        · rfl
        · rfl
        · exact absurd rfl hne
      · intro st0 ct hct
        have h4 : (some (TokenType.Square BracketState.Close) : Option TokenType) =
            some ct := hct
        obtain rfl := (Option.some.inj h4).symm
        rfl
    exfalso
    rw [closerChar, if_neg h41, if_neg h125, if_neg h93] at hch
    exact Option.noConfusion hch
  · rfl

/-- C6 witness: the three general conjuncts of `c6_theorem` for `)`
against the empty stack, a `Curly(Open)` top, and a `Paren(Open)` top. -/
theorem c6_witness :
    scan [] (41 :: []) = ScanRes.err (LexError.UnexpectedClose ')') ∧
    scan [TokenType.Curly BracketState.Open] (41 :: []) =
      ScanRes.err (LexError.UnexpectedClose ')') ∧
    scan [TokenType.Paren BracketState.Open] (41 :: []) =
      ScanRes.tok ⟨TokenType.Paren BracketState.Close, [41]⟩ 1 [] := by
  obtain ⟨h1, h2, h3⟩ :=
    c6_theorem.1 41 ')' (TokenType.Paren BracketState.Open) [] rfl rfl
  exact ⟨h1, h2 (TokenType.Curly BracketState.Open) [] rfl (by decide),
    h3 [] (TokenType.Paren BracketState.Close) rfl⟩

/--
C7 confirmed: the arrow lookahead-and-rollback produces exactly these
sequences: "->" lexes to [Arrow]; "=>" to [Assign, Bigger]; "->>" to
[Arrow, Bigger]; "-->" to [Minus, Arrow].
-/
theorem c7_theorem :
    tokenize [45, 62] = ([⟨TokenType.Arrow, [45, 62]⟩], Outcome.ended) ∧
    tokenize [61, 62] =
      ([⟨TokenType.Assign, [61]⟩, ⟨TokenType.Bigger, [62]⟩], Outcome.ended) ∧
    tokenize [45, 62, 62] =
      ([⟨TokenType.Arrow, [45, 62]⟩, ⟨TokenType.Bigger, [62]⟩], Outcome.ended) ∧
    tokenize [45, 45, 62] =
      ([⟨TokenType.Minus, [45]⟩, ⟨TokenType.Arrow, [45, 62]⟩], Outcome.ended) :=
  ⟨rfl, rfl, rfl, rfl⟩

/--
C8 confirmed: identifier/keyword scanning is maximal-munch — "letter"
lexes as a single `Ident` covering all six bytes (not `Let` plus a
remainder), and "let mut five = 5;" lexes to exactly the kind sequence
[Let, Mut, Ident, Assign, Integer, Semicolon].
-/
theorem c8_theorem :
    tokenize [108, 101, 116, 116, 101, 114] =
      ([⟨TokenType.Ident, [108, 101, 116, 116, 101, 114]⟩], Outcome.ended) ∧
    ((tokenize [108, 101, 116, 32, 109, 117, 116, 32, 102, 105, 118, 101, 32,
        61, 32, 53, 59]).1).map Token.token_type =
      [TokenType.Let, TokenType.Mut, TokenType.Ident, TokenType.Assign,
        TokenType.Integer, TokenType.Semicolon] ∧
    (tokenize [108, 101, 116, 32, 109, 117, 116, 32, 102, 105, 118, 101, 32,
        61, 32, 53, 59]).2 = Outcome.ended :=
  ⟨rfl, rfl, rfl⟩

/--
C9 confirmed: a NUL byte produces an `Eof` token consuming exactly one
byte and leaving the bracket stack unchanged, at any state (first
conjunct); this does not terminate the sequence — on the input with
bytes 0, 43, 0 scanning continues past the first NUL, producing
[Eof, Plus, Eof] and then a clean end (second conjunct).
-/
theorem c9_theorem :
    (∀ (stack : List TokenType) (rest : List Nat),
      scan stack (0 :: rest) = ScanRes.tok ⟨TokenType.Eof, [0]⟩ 1 stack) ∧
    tokenize [0, 43, 0] =
      ([⟨TokenType.Eof, [0]⟩, ⟨TokenType.Plus, [43]⟩, ⟨TokenType.Eof, [0]⟩],
        Outcome.ended) :=
  ⟨fun stack rest => rfl, rfl⟩

/--
C10 counterexample: the claim that every failure carries enough data to
diagnose without re-scanning is false on the code.  The unknown-byte
panic carries no byte: the distinct offending bytes 35 (`#`) and 64
(`@`) produce the identical `UnknownToken` failure; and the
mismatched-bracket panic carries only the found closer, not the
expected family: "(}" (paren expected) and "[}" (square expected)
produce the identical `UnexpectedClose '}'` failure.
-/
theorem c10_counterexample :
    tokenize [35] = ([], Outcome.failed LexError.UnknownToken) ∧
    tokenize [64] = ([], Outcome.failed LexError.UnknownToken) ∧
    (35 : Nat) ≠ 64 ∧
    (tokenize [40, 125]).2 = Outcome.failed (LexError.UnexpectedClose '\x7d') ∧
    (tokenize [91, 125]).2 = Outcome.failed (LexError.UnexpectedClose '\x7d') :=
  ⟨rfl, rfl, by decide, rfl, rfl⟩

/--
C10 amended: an unclosed-bracket failure carries the opening character
of the bracket kind left open; a mismatched-bracket failure carries only
the found closing character (not the expected family); an
unrecognized-byte failure carries no data at all (a fixed message).
-/
theorem c10_theorem :
    tokenize [40] = ([⟨TokenType.Paren BracketState.Open, [40]⟩],
      Outcome.failed (LexError.UnexpectedOpen '(')) ∧
    tokenize [40, 125] = ([⟨TokenType.Paren BracketState.Open, [40]⟩],
      Outcome.failed (LexError.UnexpectedClose '\x7d')) ∧
    tokenize [35] = ([], Outcome.failed LexError.UnknownToken) :=
  ⟨rfl, rfl, rfl⟩

end RustLexer
